import Mathlib

/-!
Verification of the generation-request lifecycle and response-normalization
pipeline of the title-generator app (src/App.jsx, `handleGenerate` and the
generate button).  JavaScript values are embedded as `JsVal`; `JSON.parse`
is embedded as `parseJson`; the extraction strategies, the cleanup pass and
the candidate sort of lines 132-200 are embedded as `strategyResult`,
`strategyThread`, `shapeCleanup` and `candidateNormalize`; the fetch-result
handling (lines 127-210) as `handleResponse`; the request payload of lines
111-124 as `buildPayload`; the button guard of lines 379-385 as
`clickGenerate`.

Modelling notes, stated once here:
* `undefined` and `null` are conflated as `JsVal.null`; field access on a
  non-object yields `JsVal.null` (JS: `undefined`).  The one place where the
  code can dereference a null (`temp.output`, line 162) is modelled as a
  thrown exception, matching JS.
* JSON numerics are modelled as integers.  The numeric payloads in scope
  (ranks, counts, statuses) are integral; fractional literals and `\uXXXX`
  string escapes are outside the modelled input space and the embedded
  parser rejects them.
* `Array.prototype.sort` is modelled as the classic stable insertion sort
  (`sortJS`): an element moves left only past neighbours for which the
  comparator returns a positive value.  ECMA-262 fixes the result only for
  consistent comparators, where this model agrees with every conforming
  engine; for the partial comparator of lines 186-189 the standard leaves
  the order implementation-defined, and this model realizes the stable
  "comparison returning 0 is a no-op" reading.
-/

namespace YtTitles

/-- Character constants written via code points so that brace and quote
characters never appear as literals. -/
def lbraceC : Char := Char.ofNat 123

def rbraceC : Char := Char.ofNat 125

def quoteC : Char := Char.ofNat 34

def backslashC : Char := Char.ofNat 92

/-- Embedded JavaScript/JSON value.  `null` also stands for `undefined`. -/
inductive JsVal where
  | null : JsVal
  | bool : Bool → JsVal
  | num : Int → JsVal
  | str : String → JsVal
  | arr : List JsVal → JsVal
  | obj : List (String × JsVal) → JsVal

/-- JavaScript truthiness of a value. -/
def truthy : JsVal → Bool
  | JsVal.null => false
  | JsVal.bool b => b
  | JsVal.num n => n != 0
  | JsVal.str s => s != ""
  | JsVal.arr _ => true
  | JsVal.obj _ => true

/-- Association lookup for object fields (keys are unique after parsing). -/
def lookupField : List (String × JsVal) → String → JsVal
  | [], _ => JsVal.null
  | (k, v) :: rest, key => if k = key then v else lookupField rest key

/-- Property read `v.key`: `undefined` (here `null`) when absent or when the
receiver is not an object. -/
def getField : JsVal → String → JsVal
  | JsVal.obj fields, key => lookupField fields key
  | _, _ => JsVal.null

/-- Overwrite the binding of `k` if present, otherwise append it. -/
def insertField (fields : List (String × JsVal)) (k : String) (v : JsVal) :
    List (String × JsVal) :=
  match fields with
  | [] => [(k, v)]
  | (k2, v2) :: rest =>
    if k2 = k then (k2, v) :: rest else (k2, v2) :: insertField rest k v

/-- Property write `v.key = x` (a no-op on non-objects). -/
def setField : JsVal → String → JsVal → JsVal
  | JsVal.obj fields, key, v => JsVal.obj (insertField fields key v)
  | other, _, _ => other

/-- Embeds `Array.isArray`. -/
def isArr : JsVal → Bool
  | JsVal.arr _ => true
  | _ => false

/-- Elements of an array value (empty for non-arrays). -/
def arrElems : JsVal → List JsVal
  | JsVal.arr xs => xs
  | _ => []

/-- Whether a value is a number. -/
def isNum : JsVal → Bool
  | JsVal.num _ => true
  | _ => false

/-! JSON parsing, embedding `JSON.parse` on the modelled input space. -/

/-- JSON whitespace. -/
def isWsChar (c : Char) : Bool :=
  c = ' ' || c = Char.ofNat 9 || c = Char.ofNat 10 || c = Char.ofNat 13

/-- Drop leading whitespace. -/
def skipWs : List Char → List Char
  | [] => []
  | c :: cs => if isWsChar c then skipWs cs else c :: cs

/-- Decimal digit test. -/
def isDigitC (c : Char) : Bool := '0' ≤ c && c ≤ '9'

/-- Value of a decimal digit. -/
def digitVal (c : Char) : Nat := c.toNat - 48

/-- Split off the maximal leading run of digits. -/
def takeDigits : List Char → (List Char × List Char)
  | [] => ([], [])
  | c :: cs =>
    if isDigitC c then
      let p := takeDigits cs
      (c :: p.1, p.2)
    else ([], c :: cs)

/-- Accumulate a digit run into a number. -/
def digitsToNat (acc : Nat) : List Char → Nat
  | [] => acc
  | c :: cs => digitsToNat (acc * 10 + digitVal c) cs

/-- Translation of a JSON string escape character. -/
def unescape (c : Char) : Option Char :=
  if c = quoteC then some quoteC
  else if c = backslashC then some backslashC
  else if c = '/' then some '/'
  else if c = 'n' then some (Char.ofNat 10)
  else if c = 't' then some (Char.ofNat 9)
  else if c = 'r' then some (Char.ofNat 13)
  else if c = 'b' then some (Char.ofNat 8)
  else if c = 'f' then some (Char.ofNat 12)
  else none

/-- Read string content up to the closing quote, translating escapes. -/
def takeStr : List Char → Option (List Char × List Char)
  | [] => none
  | c :: cs =>
    if c = quoteC then some ([], cs)
    else if c = backslashC then
      match cs with
      | [] => none
      | e :: cs2 =>
        match unescape e with
        | none => none
        | some u =>
          match takeStr cs2 with
          | none => none
          | some p => some (u :: p.1, p.2)
    else
      match takeStr cs with
      | none => none
      | some p => some (c :: p.1, p.2)

mutual

/-- Parse one JSON value (fuelled recursion). -/
def parseVal (fuel : Nat) (cs : List Char) : Option (JsVal × List Char) :=
  match fuel with
  | 0 => none
  | fuel + 1 =>
    match skipWs cs with
    | [] => none
    | c :: rest =>
      if c = lbraceC then parseMembersStart fuel rest
      else if c = '[' then parseElemsStart fuel rest
      else if c = quoteC then
        match takeStr rest with
        | some p => some (JsVal.str (String.mk p.1), p.2)
        | none => none
      else if c = 't' then
        match rest with
        | 'r' :: 'u' :: 'e' :: r => some (JsVal.bool true, r)
        | _ => none
      else if c = 'f' then
        match rest with
        | 'a' :: 'l' :: 's' :: 'e' :: r => some (JsVal.bool false, r)
        | _ => none
      else if c = 'n' then
        match rest with
        | 'u' :: 'l' :: 'l' :: r => some (JsVal.null, r)
        | _ => none
      else if c = '-' then
        match takeDigits rest with
        | ([], _) => none
        | (ds, r) =>
          match r with
          | '.' :: _ => none
          | 'e' :: _ => none
          | 'E' :: _ => none
          | _ => some (JsVal.num (-(Int.ofNat (digitsToNat 0 ds))), r)
      else if isDigitC c then
        match takeDigits (c :: rest) with
        | (ds, r) =>
          match r with
          | '.' :: _ => none
          | 'e' :: _ => none
          | 'E' :: _ => none
          | _ => some (JsVal.num (Int.ofNat (digitsToNat 0 ds)), r)
      else none

/-- Parse an object body just after the opening brace. -/
def parseMembersStart (fuel : Nat) (cs : List Char) : Option (JsVal × List Char) :=
  match fuel with
  | 0 => none
  | fuel + 1 =>
    match skipWs cs with
    | [] => none
    | c :: rest =>
      if c = rbraceC then some (JsVal.obj [], rest)
      else parseMembers fuel [] (c :: rest)

/-- Parse remaining object members. -/
def parseMembers (fuel : Nat) (acc : List (String × JsVal)) (cs : List Char) :
    Option (JsVal × List Char) :=
  match fuel with
  | 0 => none
  | fuel + 1 =>
    match skipWs cs with
    | [] => none
    | c :: rest =>
      if c = quoteC then
        match takeStr rest with
        | none => none
        | some kp =>
          match skipWs kp.2 with
          | ':' :: r2 =>
            match parseVal fuel r2 with
            | none => none
            | some vp =>
              let acc2 := insertField acc (String.mk kp.1) vp.1
              match skipWs vp.2 with
              | ',' :: r4 => parseMembers fuel acc2 r4
              | d :: r4 =>
                if d = rbraceC then some (JsVal.obj acc2, r4) else none
              | [] => none
          | _ => none
      else none

/-- Parse an array body just after the opening bracket. -/
def parseElemsStart (fuel : Nat) (cs : List Char) : Option (JsVal × List Char) :=
  match fuel with
  | 0 => none
  | fuel + 1 =>
    match skipWs cs with
    | [] => none
    | c :: rest =>
      if c = ']' then some (JsVal.arr [], rest)
      else parseElems fuel [] (c :: rest)

/-- Parse remaining array elements. -/
def parseElems (fuel : Nat) (acc : List JsVal) (cs : List Char) :
    Option (JsVal × List Char) :=
  match fuel with
  | 0 => none
  | fuel + 1 =>
    match parseVal fuel cs with
    | none => none
    | some vp =>
      match skipWs vp.2 with
      | ',' :: r2 => parseElems fuel (acc ++ [vp.1]) r2
      | ']' :: r2 => some (JsVal.arr (acc ++ [vp.1]), r2)
      | _ => none

end

/-- Embeds `JSON.parse`: `none` models a thrown `SyntaxError`. -/
def parseJson (s : String) : Option JsVal :=
  match parseVal (4 * s.length + 4) s.data with
  | some p => if skipWs p.2 = [] then some p.1 else none
  | none => none

/-! Response normalization, embedding App.jsx lines 132-200. -/

/-- Priority-1 extraction (lines 144-154): look for `result.result.output`
(string-encoded JSON is parsed again) or `result.result.titles`.  The value
returned is the new `parsedOutput`; `none` models a thrown parse error, at
which point `parsedOutput` still holds the whole parsed body. -/
def strategyResult (result : JsVal) : Option JsVal :=
  if truthy (getField result "result") then
    let rr := getField result "result"
    if truthy (getField rr "output") then
      match getField rr "output" with
      | JsVal.str s => parseJson s
      | v => some v
    else if truthy (getField rr "titles") then some rr
    else some result
  else some result

/-- Thread fallback (lines 157-165): when no `titles` was found yet and the
body has a `thread`, read `thread.variables.output.value`, parse it when it
is a string, and descend into a nested `output` field.  `none` models a
thrown error (the `JSON.parse` call, or `temp.output` on a null `temp`). -/
def strategyThread (result parsed : JsVal) : Option JsVal :=
  if (!truthy parsed || !truthy (getField parsed "titles")) &&
      truthy (getField result "thread") then
    let th := getField result "thread"
    if truthy (getField th "variables") &&
        truthy (getField (getField th "variables") "output") then
      let rawValue := getField (getField (getField th "variables") "output") "value"
      let tempOpt : Option JsVal :=
        match rawValue with
        | JsVal.str s => parseJson s
        | v => some v
      match tempOpt with
      | none => none
      | some JsVal.null => none
      | some temp =>
        if truthy (getField temp "output") then some (getField temp "output")
        else some temp
    else some parsed
  else some parsed

/-- Shape cleanup (lines 169-175): an `output` field that is an array
becomes the titles list; an `output` object carrying `titles` is promoted. -/
def shapeCleanup (p : JsVal) : JsVal :=
  if truthy p && truthy (getField p "output") && isArr (getField p "output") then
    JsVal.obj [("titles", getField p "output")]
  else if truthy p && truthy (getField p "output") &&
      truthy (getField (getField p "output") "titles") then
    getField p "output"
  else p

/-- Candidate promotion (lines 180-183): a bare string becomes an object
with that `youtube_title` and a null `thumbnail_text`; other values pass
through unchanged. -/
def promote : JsVal → JsVal
  | JsVal.str s =>
    JsVal.obj [("youtube_title", JsVal.str s), ("thumbnail_text", JsVal.null)]
  | v => v

/-- Rank comparator (lines 186-189): `a.rank - b.rank` when both ranks are
truthy, `0` otherwise.  Non-numeric truthy ranks yield `NaN`, which the
sort treats as `0` (ECMA-262 SortCompare); numeric-string coercion is
outside the modelled input space. -/
def cmpRank (a b : JsVal) : Int :=
  if truthy (getField a "rank") && truthy (getField b "rank") then
    match getField a "rank", getField b "rank" with
    | JsVal.num x, JsVal.num y => x - y
    | _, _ => 0
  else 0

/-- Insert into a reversed sorted prefix: scanning from the most recent end,
the element passes a neighbour only when the comparator is positive. -/
def insertRev {α : Type} (cmp : α → α → Int) (x : α) : List α → List α
  | [] => [x]
  | y :: ys => if cmp y x > 0 then y :: insertRev cmp x ys else x :: y :: ys

/-- Model of `Array.prototype.sort cmp` as a stable insertion sort (see the
header note on implementation-defined orders). -/
def sortJS {α : Type} (cmp : α → α → Int) (l : List α) : List α :=
  (l.foldl (fun acc x => insertRev cmp x acc) []).reverse

/-- Numeric rank of a candidate, `0` when absent or non-numeric. -/
def rankNum (v : JsVal) : Int :=
  match getField v "rank" with
  | JsVal.num n => n
  | _ => 0

/-- Candidate normalization (lines 179-190): promote bare strings, then
sort by rank. -/
def candidateNormalize (p : JsVal) : JsVal :=
  if truthy p && isArr (getField p "titles") then
    let mapped := (arrElems (getField p "titles")).map promote
    setField p "titles" (JsVal.arr (sortJS cmpRank mapped))
  else p

/-- The whole inner `try` block (lines 143-194) with its catch: an
exception in a strategy keeps the `parsedOutput` current at the throw and
skips everything after it, including the cleanup and sort passes. -/
def applyStrategies (result : JsVal) : JsVal :=
  match strategyResult result with
  | none => result
  | some p1 =>
    match strategyThread result p1 with
    | none => p1
    | some p2 => candidateNormalize (shapeCleanup p2)

/-- Terminal value handed to `setResultDisplay` for one attempt. -/
inductive Outcome where
  | display : JsVal → Outcome
  | opaqueText : String → Outcome
  | failure : String → Outcome

/-- Placeholder object used for an empty success body (line 134). -/
def placeholderObj : JsVal :=
  JsVal.obj [("message", JsVal.str "Success (No content)")]

/-- Embeds `response.ok`. -/
def responseOk (status : Nat) : Bool := 200 ≤ status && status ≤ 299

/-- Error message built on a non-ok response (line 129). -/
def webhookErrMsg (status : Nat) (statusText bodyText : String) : String :=
  "Webhook failed: " ++ toString status ++ " " ++ statusText ++ " - " ++ bodyText

/-- Handling of the fetch response (lines 127-207): non-ok statuses throw
to the outer catch and become a `failure` carrying status, status text and
the error body; a body that is not JSON becomes opaque text; otherwise the
parsed body runs through the strategies. -/
def handleResponse (status : Nat) (statusText body : String) : Outcome :=
  if !responseOk status then Outcome.failure (webhookErrMsg status statusText body)
  else if body = "" then Outcome.display (applyStrategies placeholderObj)
  else
    match parseJson body with
    | some result => Outcome.display (applyStrategies result)
    | none =>
      Outcome.opaqueText (if body = "" then "Webhook triggered successfully." else body)

/-! Request building, embedding App.jsx lines 94-125. -/

/-- User-entered fields of one generation attempt. -/
structure GenerationRequest where
  topic : String
  keyPoints : String
  targetAudience : String
  mainTakeaway : String
  descriptionCount : String
  tone : String

/-- The `webhookParams` object of the request body (lines 115-122). -/
structure WebhookParams where
  topic : String
  key_points : String
  target_audience : String
  main_takeaway : String
  description_count : Option Int
  tone : String

/-- The full request body (lines 111-124): fixed routing identifiers plus
the user fields. -/
structure Payload where
  agentId : String
  workflow : String
  webhookParams : WebhookParams

/-- Embeds `parseInt(s, 10)`: skip whitespace, optional sign, leading
digits; `none` models `NaN`. -/
def jsParseInt (s : String) : Option Int :=
  let cs := skipWs s.data
  match cs with
  | '-' :: rest =>
    match takeDigits rest with
    | ([], _) => none
    | (ds, _) => some (-(Int.ofNat (digitsToNat 0 ds)))
  | '+' :: rest =>
    match takeDigits rest with
    | ([], _) => none
    | (ds, _) => some (Int.ofNat (digitsToNat 0 ds))
  | _ =>
    match takeDigits cs with
    | ([], _) => none
    | (ds, _) => some (Int.ofNat (digitsToNat 0 ds))

/-- The fixed agent identifier of line 112. -/
def agentIdConst : String := "606f273e-7fc0-44a9-835a-dfc50f6429b4"

/-- Request building: the guard of line 95 refuses an empty topic (no fetch
happens); otherwise the body of lines 111-124 is assembled, with
`description_count` coerced through `parseInt`. -/
def buildPayload (r : GenerationRequest) : Option Payload :=
  if r.topic = "" then none
  else
    some (Payload.mk agentIdConst "Main"
      (WebhookParams.mk r.topic r.keyPoints r.targetAudience r.mainTakeaway
        (jsParseInt r.descriptionCount) r.tone))

/-! Generation lifecycle, embedding the guards of lines 94-97 and the
generate button of lines 379-385. -/

/-- The component state relevant to the single-flight guard. -/
structure UiState where
  topic : String
  loading : Bool
  resultDisplay : Option Outcome

/-- Entry of `handleGenerate` (lines 94-97): refuse an empty topic,
otherwise clear the previous outcome, set loading and dispatch the
request.  The boolean reports whether a network request was dispatched. -/
def handleGenerateStart (s : UiState) : UiState × Bool :=
  if s.topic = "" then (s, false)
  else (UiState.mk s.topic true none, true)

/-- Invoking generate through its control: the button is disabled while
`loading || !topic` (lines 380-385), so a click then fires nothing. -/
def clickGenerate (s : UiState) : UiState × Bool :=
  if s.loading || s.topic = "" then (s, false)
  else handleGenerateStart s

/-! Concrete inputs used by counterexamples and witnesses. -/

/-- Whether a candidate carries a truthy numeric rank. -/
def goodRank (x : JsVal) : Bool :=
  isNum (getField x "rank") && truthy (getField x "rank")

/-- A candidate object with a title and an integer rank. -/
def rankedCand (t : String) (r : Int) : JsVal :=
  JsVal.obj [("youtube_title", JsVal.str t), ("rank", JsVal.num r)]

/-- A candidate object carrying no rank. -/
def noRankCand (t : String) : JsVal :=
  JsVal.obj [("youtube_title", JsVal.str t)]

/-- Stringified JSON carried by the qualifying chat post of the thread-posts
scenario: it parses and contains a titles field. -/
def c1goodContent : String := "\x7b\"titles\": [\"Alpha\", \"Beta\"]\x7d"

/-- Content of the most recent chat post of the scenario; not valid JSON. -/
def c1badContent : String := "oops not json"

/-- A parsed body holding only a thread-posts history: the second-to-last
post is a system/assistant chat message whose content is valid JSON with a
titles field, the last one is malformed. -/
def c1input : JsVal :=
  JsVal.obj [("thread", JsVal.obj [("posts", JsVal.arr
    [JsVal.obj [("type", JsVal.str "CHAT_MESSAGE"), ("role", JsVal.str "assistant"),
      ("content", JsVal.str c1goodContent)],
     JsVal.obj [("type", JsVal.str "CHAT_MESSAGE"), ("role", JsVal.str "system"),
      ("content", JsVal.str c1badContent)]])])]

/-- Stringified JSON sitting in `thread.variables.output.value`. -/
def c3threadValue : String := "\x7b\"titles\": [\"Gamma\"]\x7d"

/-- A parsed body whose `result.output` is a string that is not valid JSON
while its thread fallback data is present and valid. -/
def c3input : JsVal :=
  JsVal.obj [("result", JsVal.obj [("output", JsVal.str "not json")]),
    ("thread", JsVal.obj [("variables", JsVal.obj [("output",
      JsVal.obj [("value", JsVal.str c3threadValue)])])])]

/-- Response body whose `result.output` is a non-JSON string. -/
def c3witnessBody : String := "\x7b\"result\": \x7b\"output\": \"not json\"\x7d\x7d"

/-- The parse of `c3witnessBody`. -/
def c3witnessVal : JsVal :=
  JsVal.obj [("result", JsVal.obj [("output", JsVal.str "not json")])]

/-- Titles payload whose candidates carry the distinct integer ranks 2, 1
and 0. -/
def c6cexPayload : JsVal :=
  JsVal.obj [("titles", JsVal.arr
    [rankedCand "A" 2, rankedCand "B" 1, rankedCand "C" 0])]

/-! Helper lemmas about the sort model and field access. -/

/-- Inserting an element that never wins a comparison prepends it. -/
theorem insertRev_of_nonpos {α : Type} (cmp : α → α → Int) (x : α) (acc : List α)
    (h : ∀ y, ¬ cmp y x > 0) : insertRev cmp x acc = x :: acc := by
  cases acc with
  | nil => rfl
  | cons y ys => simp [insertRev, h y]

/-- Folding inserts of elements that never win reverses the list onto the
accumulator. -/
theorem foldl_insertRev_id {α : Type} (cmp : α → α → Int) (l : List α)
    (h : ∀ x ∈ l, ∀ y, ¬ cmp y x > 0) :
    ∀ acc : List α,
      List.foldl (fun acc x => insertRev cmp x acc) acc l = l.reverse ++ acc := by
  induction l with
  | nil => intro acc; simp
  | cons x xs ih =>
    intro acc
    simp only [List.foldl_cons]
    rw [insertRev_of_nonpos cmp x acc (fun y => h x (by simp) y)]
    rw [ih (fun z hz y => h z (by simp [hz]) y) (x :: acc)]
    simp

/-- The sort is the identity when no element ever wins a comparison. -/
theorem sortJS_id {α : Type} (cmp : α → α → Int) (l : List α)
    (h : ∀ x ∈ l, ∀ y, ¬ cmp y x > 0) : sortJS cmp l = l := by
  unfold sortJS
  rw [foldl_insertRev_id cmp l h []]
  simp

/-- An insertion scan never crosses an element it cannot beat. -/
theorem insertRev_append {α : Type} (cmp : α → α → Int) (z x : α) (rest : List α)
    (hx : ¬ cmp x z > 0) (w : List α) :
    insertRev cmp z (w ++ x :: rest) = insertRev cmp z w ++ x :: rest := by
  induction w with
  | nil => simp [insertRev, hx]
  | cons y w ih => by_cases hy : cmp y z > 0 <;> simp [insertRev, hy, ih]

/-- Folding inserts never moves anything across an element `x` that beats
nobody and is beaten by nobody. -/
theorem foldl_insertRev_split {α : Type} (cmp : α → α → Int) (x : α)
    (hx : ∀ z, ¬ cmp x z > 0) (l₂ : List α) :
    ∀ w acc₁ : List α,
      List.foldl (fun acc y => insertRev cmp y acc) (w ++ x :: acc₁) l₂ =
        List.foldl (fun acc y => insertRev cmp y acc) w l₂ ++ x :: acc₁ := by
  induction l₂ with
  | nil => intro w acc₁; simp
  | cons z l₂ ih =>
    intro w acc₁
    simp only [List.foldl_cons]
    rw [insertRev_append cmp z x acc₁ (hx z) w]
    exact ih (insertRev cmp z w) acc₁

/-- Splitting lemma: an element for which every comparison is a no-op keeps
its place, and the parts before and after it sort independently. -/
theorem sortJS_split {α : Type} (cmp : α → α → Int) (x : α) (l₁ l₂ : List α)
    (hx1 : ∀ y, ¬ cmp y x > 0) (hx2 : ∀ z, ¬ cmp x z > 0) :
    sortJS cmp (l₁ ++ x :: l₂) = sortJS cmp l₁ ++ x :: sortJS cmp l₂ := by
  unfold sortJS
  rw [List.foldl_append]
  simp only [List.foldl_cons]
  rw [insertRev_of_nonpos cmp x _ hx1]
  have h := foldl_insertRev_split cmp x hx2 l₂ []
    (List.foldl (fun acc y => insertRev cmp y acc) [] l₁)
  simp only [List.nil_append] at h
  rw [h]
  simp

/-- Insertion permutes: the result is the element consed on the input. -/
theorem insertRev_perm {α : Type} (cmp : α → α → Int) (x : α) (acc : List α) :
    List.Perm (insertRev cmp x acc) (x :: acc) := by
  induction acc with
  | nil => exact List.Perm.refl _
  | cons y ys ih =>
    by_cases h : cmp y x > 0
    · simp only [insertRev, h, if_true]
      exact List.Perm.trans (List.Perm.cons y ih) (List.Perm.swap x y ys)
    · simp [insertRev, h]

/-- Inserting a well-ranked element into a non-increasing accumulator of
well-ranked elements keeps it non-increasing. -/
theorem insertRev_pairwise {α : Type} (cmp : α → α → Int) (k : α → Int)
    (good : α → Bool)
    (hcmp : ∀ a b, good a = true → good b = true → cmp a b = k a - k b)
    (x : α) (hx : good x = true) :
    ∀ acc : List α, (∀ y ∈ acc, good y = true) →
      List.Pairwise (fun a b => k b ≤ k a) acc →
      List.Pairwise (fun a b => k b ≤ k a) (insertRev cmp x acc) := by
  intro acc
  induction acc with
  | nil =>
    intro _ _
    simp [insertRev]
  | cons y ys ih =>
    intro hg hp
    have hgy : good y = true := hg y (by simp)
    have hgys : ∀ z ∈ ys, good z = true := fun z hz => hg z (by simp [hz])
    rcases List.pairwise_cons.mp hp with ⟨hy_all, hp_ys⟩
    by_cases h : cmp y x > 0
    · have hsub := hcmp y x hgy hx
      have hkxy : k x ≤ k y := by rw [hsub] at h; omega
      simp only [insertRev, h, if_true]
      refine List.pairwise_cons.mpr ⟨?_, ih hgys hp_ys⟩
      intro z hz
      rcases List.mem_cons.mp ((insertRev_perm cmp x ys).mem_iff.mp hz) with rfl | hz2
      · exact hkxy
      · exact hy_all z hz2
    · have hsub := hcmp y x hgy hx
      have hkyx : k y ≤ k x := by
        by_cases hyx : cmp y x ≤ 0
        · rw [hsub] at hyx; omega
        · omega
      simp only [insertRev, h, if_false]
      refine List.pairwise_cons.mpr ⟨?_, hp⟩
      intro z hz
      rcases List.mem_cons.mp hz with rfl | hz2
      · exact hkyx
      · exact le_trans (hy_all z hz2) hkyx

/-- Folding inserts of well-ranked elements preserves the non-increasing
invariant of the accumulator. -/
theorem foldl_insertRev_pairwise {α : Type} (cmp : α → α → Int) (k : α → Int)
    (good : α → Bool)
    (hcmp : ∀ a b, good a = true → good b = true → cmp a b = k a - k b)
    (l : List α) :
    ∀ acc : List α, (∀ x ∈ l, good x = true) → (∀ y ∈ acc, good y = true) →
      List.Pairwise (fun a b => k b ≤ k a) acc →
      (∀ y ∈ List.foldl (fun acc x => insertRev cmp x acc) acc l, good y = true) ∧
        List.Pairwise (fun a b => k b ≤ k a)
          (List.foldl (fun acc x => insertRev cmp x acc) acc l) := by
  induction l with
  | nil =>
    intro acc _ hg hp
    exact ⟨hg, hp⟩
  | cons x xs ih =>
    intro acc hl hg hp
    have hgx : good x = true := hl x (by simp)
    have hl2 : ∀ z ∈ xs, good z = true := fun z hz => hl z (by simp [hz])
    have hg2 : ∀ y ∈ insertRev cmp x acc, good y = true := by
      intro y hy
      rcases List.mem_cons.mp ((insertRev_perm cmp x acc).mem_iff.mp hy) with rfl | hy2
      · exact hgx
      · exact hg y hy2
    have hp2 := insertRev_pairwise cmp k good hcmp x hgx acc hg hp
    simpa using ih (insertRev cmp x acc) hl2 hg2 hp2

/-- Sorting a list of well-ranked elements yields a list non-decreasing in
the key. -/
theorem sortJS_pairwise {α : Type} (cmp : α → α → Int) (k : α → Int)
    (good : α → Bool)
    (hcmp : ∀ a b, good a = true → good b = true → cmp a b = k a - k b)
    (l : List α) (hl : ∀ x ∈ l, good x = true) :
    List.Pairwise (fun a b => k a ≤ k b) (sortJS cmp l) := by
  unfold sortJS
  have h := (foldl_insertRev_pairwise cmp k good hcmp l [] hl (by simp) (by simp)).2
  exact List.pairwise_reverse.mpr h

/-- Looking up a key just written returns the written value. -/
theorem lookupField_insertField (fields : List (String × JsVal)) (k : String)
    (v : JsVal) : lookupField (insertField fields k v) k = v := by
  induction fields with
  | nil => simp [insertField, lookupField]
  | cons p rest ih =>
    by_cases h : p.1 = k
    · simp [insertField, lookupField, h]
    · simp [insertField, lookupField, h, ih]

/-- Reading a field just set on an object returns the new value. -/
theorem getField_setField (fields : List (String × JsVal)) (k : String) (v : JsVal) :
    getField (setField (JsVal.obj fields) k v) k = v := by
  simp [setField, getField, lookupField_insertField]

/-- Promotion is the identity on every non-string value. -/
theorem promote_of_not_str (v : JsVal) (h : ∀ s, v ≠ JsVal.str s) : promote v = v := by
  cases v with
  | str s => exact absurd rfl (h s)
  | null => rfl
  | bool b => rfl
  | num n => rfl
  | arr xs => rfl
  | obj fs => rfl

/-- The comparator is a no-op when the left rank is falsy. -/
theorem cmpRank_zero_left (a b : JsVal) (h : truthy (getField a "rank") = false) :
    cmpRank a b = 0 := by
  simp [cmpRank, h]

/-- The comparator is a no-op when the right rank is falsy. -/
theorem cmpRank_zero_right (a b : JsVal) (h : truthy (getField b "rank") = false) :
    cmpRank a b = 0 := by
  simp [cmpRank, h]

/-- On candidates with truthy numeric ranks the comparator is rank
subtraction. -/
theorem cmpRank_eq_sub (a b : JsVal) (ha : goodRank a = true) (hb : goodRank b = true) :
    cmpRank a b = rankNum a - rankNum b := by
  have ha3 : isNum (getField a "rank") = true ∧ truthy (getField a "rank") = true := by
    simpa [goodRank] using ha
  have hb3 : isNum (getField b "rank") = true ∧ truthy (getField b "rank") = true := by
    simpa [goodRank] using hb
  rcases ha3 with ⟨ha1, ha2⟩
  rcases hb3 with ⟨hb1, hb2⟩
  unfold cmpRank rankNum
  rw [ha2, hb2]
  revert ha1 hb1
  cases getField a "rank" <;> cases getField b "rank" <;> simp [isNum]

/-- Normalization of the titles list: when `p.titles` is an array, the
result's titles are the promoted elements sorted by the rank comparator. -/
theorem candidateNormalize_titles (p : JsVal) (l : List JsVal)
    (h : getField p "titles" = JsVal.arr l) :
    getField (candidateNormalize p) "titles" =
      JsVal.arr (sortJS cmpRank (l.map promote)) := by
  cases p with
  | obj fields =>
    unfold candidateNormalize
    rw [h]
    simp only [truthy, isArr, arrElems, Bool.and_true, Bool.and_self, if_true]
    exact getField_setField fields "titles" _
  | null => simp [getField] at h
  | bool b => simp [getField] at h
  | num n => simp [getField] at h
  | str s => simp [getField] at h
  | arr xs => simp [getField] at h

/-- The first strategy leaves `parsedOutput` alone when `result` is falsy. -/
theorem strategyResult_no_result (v : JsVal) (h : truthy (getField v "result") = false) :
    strategyResult v = some v := by
  simp [strategyResult, h]

/-- The thread strategy leaves `parsedOutput` alone when
`thread.variables` is falsy. -/
theorem strategyThread_no_vars (result parsed : JsVal)
    (h : truthy (getField (getField result "thread") "variables") = false) :
    strategyThread result parsed = some parsed := by
  unfold strategyThread
  cases hcond : ((!truthy parsed || !truthy (getField parsed "titles")) &&
      truthy (getField result "thread")) <;> simp [hcond, h]

/-- The cleanup pass is the identity when `output` is falsy. -/
theorem shapeCleanup_no_output (p : JsVal) (h : truthy (getField p "output") = false) :
    shapeCleanup p = p := by
  simp [shapeCleanup, h]

/-- The candidate pass is the identity when `titles` is not an array. -/
theorem candidateNormalize_not_arr (p : JsVal) (h : isArr (getField p "titles") = false) :
    candidateNormalize p = p := by
  simp [candidateNormalize, h]

/-- When no promoted candidate has a truthy rank every comparison is a
no-op, so the sort is the identity and normalization keeps the promoted
elements in their original order. -/
theorem normalize_no_rank_titles (p : JsVal) (l : List JsVal)
    (ht : getField p "titles" = JsVal.arr l)
    (hnr : ∀ x ∈ l, truthy (getField (promote x) "rank") = false) :
    sortJS cmpRank (l.map promote) = l.map promote ∧
    getField (candidateNormalize p) "titles" = JsVal.arr (l.map promote) := by
  have hid : sortJS cmpRank (l.map promote) = l.map promote := by
    apply sortJS_id
    intro x hx y
    rcases List.mem_map.mp hx with ⟨x0, hx0, rfl⟩
    rw [cmpRank_zero_right y (promote x0) (hnr x0 hx0)]
    simp
  refine ⟨hid, ?_⟩
  rw [candidateNormalize_titles p l ht, hid]

/-- Pointwise-identical maps act as the identity. -/
theorem map_promote_id (m : List JsVal) (h : ∀ x ∈ m, promote x = x) :
    m.map promote = m := by
  induction m with
  | nil => rfl
  | cons x xs ih =>
    simp only [List.map_cons]
    rw [h x (by simp), ih (fun z hz => h z (by simp [hz]))]

/-! Claim theorems. -/

/-- C1, counterexample: a parsed body carrying only a thread-posts history
satisfies every precondition of the claimed message-history scan (no
earlier strategy matches, `thread.posts` is an ordered sequence, a
system/assistant chat post whose content parses as JSON with a titles
field exists, the most recent post is malformed), yet normalization
returns the body unchanged and extracts no titles field at all. -/
theorem c1_scan_counterexample :
    truthy (getField c1input "result") = false ∧
    isArr (getField (getField c1input "thread") "posts") = true ∧
    parseJson c1goodContent =
      some (JsVal.obj [("titles", JsVal.arr [JsVal.str "Alpha", JsVal.str "Beta"])]) ∧
    parseJson c1badContent = none ∧
    applyStrategies c1input = c1input ∧
    truthy (getField (applyStrategies c1input) "titles") = false :=
  ⟨rfl, rfl, rfl, rfl, rfl, rfl⟩

/-- C1 (amended): the normalizer performs no message-history scan.  When
neither the result strategy, the thread-variables strategy nor the cleanup
passes find anything, the parsed body — `thread.posts` included — is
returned unchanged as best-effort content, no post content ever parsed. -/
theorem c1_thread_posts_not_scanned (v : JsVal)
    (h1 : truthy (getField v "result") = false)
    (h2 : truthy (getField (getField v "thread") "variables") = false)
    (h3 : truthy (getField v "output") = false)
    (h4 : isArr (getField v "titles") = false) :
    applyStrategies v = v := by
  simp only [applyStrategies, strategyResult_no_result v h1,
    strategyThread_no_vars v v h2, shapeCleanup_no_output v h3,
    candidateNormalize_not_arr v h4]

/-- C1 witness: the amended theorem applied to the thread-posts body. -/
theorem c1_thread_posts_not_scanned_w : applyStrategies c1input = c1input :=
  c1_thread_posts_not_scanned c1input rfl rfl rfl rfl

/-- C2: while a generation attempt is in flight (`loading = true`),
invoking generate again through its control dispatches no network request
and leaves the state unchanged. -/
theorem c2_single_flight (s : UiState) (h : s.loading = true) :
    clickGenerate s = (s, false) := by
  simp [clickGenerate, h]

/-- C2 witness: a loading state with a non-empty topic is left untouched. -/
theorem c2_single_flight_w :
    clickGenerate (UiState.mk "topic" true none) = (UiState.mk "topic" true none, false) :=
  c2_single_flight (UiState.mk "topic" true none) rfl

/-- C3, counterexample: on a body whose `result.output` is a non-JSON
string while valid thread-fallback data is present, the first strategy
throws, and — contrary to the claim that only that strategy is skipped —
the thread strategy (which on its own would extract the titles) never
runs: the whole body comes back unchanged, with no titles field. -/
theorem c3_chain_counterexample :
    strategyResult c3input = none ∧
    strategyThread c3input c3input =
      some (JsVal.obj [("titles", JsVal.arr [JsVal.str "Gamma"])]) ∧
    applyStrategies c3input = c3input ∧
    truthy (getField (applyStrategies c3input) "titles") = false :=
  ⟨rfl, rfl, rfl, rfl⟩

/-- C3 (amended): a parsing error inside the fallback chain is non-fatal
and the outcome is never a Failure, but it aborts the remaining strategies
and cleanup passes: the outcome keeps the `parsedOutput` current at the
throw — the whole parsed body when the first strategy throws, the first
strategy's result when the thread strategy throws. -/
theorem c3_parse_error_aborts_chain :
    (∀ (status : Nat) (statusText body : String) (v : JsVal),
      responseOk status = true → parseJson body = some v → strategyResult v = none →
      handleResponse status statusText body = Outcome.display v) ∧
    (∀ v p1 : JsVal, strategyResult v = some p1 → strategyThread v p1 = none →
      applyStrategies v = p1) := by
  constructor
  · intro status statusText body v hok hparse hthrow
    have hempty : parseJson "" = none := rfl
    have hbody : ¬ body = "" := by
      intro hb
      rw [hb, hempty] at hparse
      exact Option.noConfusion hparse
    simp [handleResponse, hok, hbody, hparse, applyStrategies, hthrow]
  · intro v p1 h1 h2
    simp [applyStrategies, h1, h2]

/-- C3 witness: a 200 response whose `result.output` does not parse comes
back as the whole parsed body, not a failure. -/
theorem c3_parse_error_aborts_chain_w :
    handleResponse 200 "OK" c3witnessBody = Outcome.display c3witnessVal :=
  c3_parse_error_aborts_chain.1 200 "OK" c3witnessBody c3witnessVal rfl rfl rfl

/-- C4: every non-success HTTP status yields a Failure outcome carrying
the status code, status text and the server-provided error body; the
normalization pipeline never touches that body. -/
theorem c4_http_failure (status : Nat) (statusText body : String)
    (h : responseOk status = false) :
    handleResponse status statusText body =
      Outcome.failure (webhookErrMsg status statusText body) := by
  simp [handleResponse, h]

/-- C4 witness: HTTP 500 with body "internal error". -/
theorem c4_http_failure_w :
    handleResponse 500 "Internal Server Error" "internal error" =
      Outcome.failure "Webhook failed: 500 Internal Server Error - internal error" :=
  (c4_http_failure 500 "Internal Server Error" "internal error" rfl).trans rfl

/-- C5: a 2xx response with a non-empty body that does not parse as JSON
is opaque success text carrying the whole body (never a Failure); an empty
2xx body yields the fixed placeholder message object. -/
theorem c5_non_json_success (status : Nat) (statusText body : String)
    (hok : responseOk status = true) :
    (body ≠ "" → parseJson body = none →
      handleResponse status statusText body = Outcome.opaqueText body) ∧
    (body = "" → handleResponse status statusText body = Outcome.display placeholderObj) := by
  constructor
  · intro hne hparse
    simp [handleResponse, hok, hne, hparse]
  · intro he
    subst he
    simp only [handleResponse, hok, Bool.not_true, if_true, if_pos rfl]
    rfl

/-- C5 witness: body "Generated OK" is opaque success; an empty body is
the placeholder. -/
theorem c5_non_json_success_w :
    handleResponse 200 "OK" "Generated OK" = Outcome.opaqueText "Generated OK" ∧
    handleResponse 204 "No Content" "" = Outcome.display placeholderObj :=
  ⟨(c5_non_json_success 200 "OK" "Generated OK" rfl).1 (by decide) rfl,
   (c5_non_json_success 204 "No Content" "" rfl).2 rfl⟩

/-- C6, counterexample: candidates with the distinct integer ranks 2, 1, 0
(all integer-ranked, pairwise distinct) normalize to ranks 1, 2, 0 — not
non-decreasing, because the comparator treats the falsy rank 0 as absent. -/
theorem c6_rank_counterexample :
    (∀ x ∈ [rankedCand "A" 2, rankedCand "B" 1, rankedCand "C" 0],
      isNum (getField x "rank") = true) ∧
    List.Pairwise (fun a b => rankNum a ≠ rankNum b)
      [rankedCand "A" 2, rankedCand "B" 1, rankedCand "C" 0] ∧
    arrElems (getField (candidateNormalize c6cexPayload) "titles") =
      [rankedCand "B" 1, rankedCand "A" 2, rankedCand "C" 0] ∧
    ¬ List.Pairwise (fun a b => rankNum a ≤ rankNum b)
      [rankedCand "B" 1, rankedCand "A" 2, rankedCand "C" 0] := by
  refine ⟨by decide, by decide, rfl, by decide⟩

/-- C6 (amended): when every candidate carries a distinct truthy (nonzero)
integer rank, the normalized titles are non-decreasing in rank. -/
theorem c6_rank_ordering (p : JsVal) (l : List JsVal)
    (ht : getField p "titles" = JsVal.arr l)
    (hranks : ∀ x ∈ l, goodRank x = true)
    (_hdist : List.Pairwise (fun a b => rankNum a ≠ rankNum b) l) :
    List.Pairwise (fun a b => rankNum a ≤ rankNum b)
      (arrElems (getField (candidateNormalize p) "titles")) := by
  have hpid : ∀ x ∈ l, promote x = x := by
    intro x hx
    apply promote_of_not_str
    intro s hxs
    have hg := hranks x hx
    rw [hxs] at hg
    simp [goodRank, getField, isNum] at hg
  have hct := candidateNormalize_titles p l ht
  rw [map_promote_id l hpid] at hct
  rw [hct]
  simpa [arrElems] using
    sortJS_pairwise cmpRank rankNum goodRank cmpRank_eq_sub l hranks

/-- C6 witness: ranks 2 then 1 come back in non-decreasing order. -/
theorem c6_rank_ordering_w :
    List.Pairwise (fun a b => rankNum a ≤ rankNum b)
      (arrElems (getField (candidateNormalize
        (JsVal.obj [("titles", JsVal.arr [rankedCand "A" 2, rankedCand "B" 1])])) "titles")) :=
  c6_rank_ordering (JsVal.obj [("titles", JsVal.arr [rankedCand "A" 2, rankedCand "B" 1])])
    [rankedCand "A" 2, rankedCand "B" 1] rfl (by decide) (by decide)

/-- C7: when no candidate carries a rank, every comparison is a no-op, the
sort is the identity and normalization preserves the original relative
order of the (promoted) candidates. -/
theorem c7_no_rank_stability (p : JsVal) (l : List JsVal)
    (ht : getField p "titles" = JsVal.arr l)
    (hnr : ∀ x ∈ l, truthy (getField (promote x) "rank") = false) :
    sortJS cmpRank (l.map promote) = l.map promote ∧
    getField (candidateNormalize p) "titles" = JsVal.arr (l.map promote) :=
  normalize_no_rank_titles p l ht hnr

/-- C7 witness: two unranked candidates keep their order. -/
theorem c7_no_rank_stability_w :
    getField (candidateNormalize
        (JsVal.obj [("titles", JsVal.arr [noRankCand "X", noRankCand "Y"])])) "titles" =
      JsVal.arr [noRankCand "X", noRankCand "Y"] :=
  ((c7_no_rank_stability (JsVal.obj [("titles", JsVal.arr [noRankCand "X", noRankCand "Y"])])
    [noRankCand "X", noRankCand "Y"] rfl (by decide)).2).trans rfl

/-- C8: a request with a non-empty topic builds a payload holding exactly
the five user field values with `description_count` coerced through
`parseInt`, plus the fixed agent identifier and workflow name; an empty
topic refuses to build and dispatches nothing. -/
theorem c8_request_builder :
    (∀ r : GenerationRequest, r.topic ≠ "" →
      buildPayload r = some (Payload.mk agentIdConst "Main"
        (WebhookParams.mk r.topic r.keyPoints r.targetAudience r.mainTakeaway
          (jsParseInt r.descriptionCount) r.tone))) ∧
    (∀ r : GenerationRequest, r.topic = "" → buildPayload r = none) ∧
    (∀ s : UiState, s.topic = "" → handleGenerateStart s = (s, false)) := by
  refine ⟨?_, ?_, ?_⟩
  · intro r h
    simp [buildPayload, h]
  · intro r h
    simp [buildPayload, h]
  · intro s h
    simp [handleGenerateStart, h]

/-- C8 witness: a concrete request builds the expected payload, and the
same request with an empty topic refuses. -/
theorem c8_request_builder_w :
    buildPayload (GenerationRequest.mk "How to scale" "points" "audience" "takeaway" "10" "Viral")
      = some (Payload.mk agentIdConst "Main"
        (WebhookParams.mk "How to scale" "points" "audience" "takeaway" (some 10) "Viral")) ∧
    buildPayload (GenerationRequest.mk "" "points" "audience" "takeaway" "10" "Viral") = none :=
  ⟨(c8_request_builder.1
      (GenerationRequest.mk "How to scale" "points" "audience" "takeaway" "10" "Viral")
      (by decide)).trans rfl,
   c8_request_builder.2.1 (GenerationRequest.mk "" "points" "audience" "takeaway" "10" "Viral") rfl⟩

/-- C9: a bare-string element is promoted to a candidate with that
`youtube_title` and a null `thumbnail_text`; object elements pass through
field-for-field; and with no ranks present the original element order is
preserved. -/
theorem c9_bare_string_promotion :
    (∀ s : String, promote (JsVal.str s) =
      JsVal.obj [("youtube_title", JsVal.str s), ("thumbnail_text", JsVal.null)]) ∧
    (∀ fs : List (String × JsVal), promote (JsVal.obj fs) = JsVal.obj fs) ∧
    (∀ (p : JsVal) (l : List JsVal), getField p "titles" = JsVal.arr l →
      (∀ x ∈ l, truthy (getField (promote x) "rank") = false) →
      getField (candidateNormalize p) "titles" = JsVal.arr (l.map promote)) := by
  refine ⟨fun s => rfl, fun fs => rfl, ?_⟩
  intro p l ht hnr
  exact (normalize_no_rank_titles p l ht hnr).2

/-- C9 witness: the titles array of bare strings "X", "Y" yields the two
promoted candidates in original order. -/
theorem c9_bare_string_promotion_w :
    getField (candidateNormalize
        (JsVal.obj [("titles", JsVal.arr [JsVal.str "X", JsVal.str "Y"])])) "titles" =
      JsVal.arr
        [JsVal.obj [("youtube_title", JsVal.str "X"), ("thumbnail_text", JsVal.null)],
         JsVal.obj [("youtube_title", JsVal.str "Y"), ("thumbnail_text", JsVal.null)]] :=
  (c9_bare_string_promotion.2.2
      (JsVal.obj [("titles", JsVal.arr [JsVal.str "X", JsVal.str "Y"])])
      [JsVal.str "X", JsVal.str "Y"] rfl (by decide)).trans rfl

/-- C10: the comparator treats any falsy rank — `0` included — as absent:
every comparison involving such a candidate returns 0, and under the
modelled stable sort such a candidate is never reordered relative to any
neighbour (everything before it stays before, everything after stays
after, each side sorting independently). -/
theorem c10_falsy_rank_noop :
    (∀ a b : JsVal,
      truthy (getField a "rank") = false ∨ truthy (getField b "rank") = false →
      cmpRank a b = 0) ∧
    (∀ (l₁ l₂ : List JsVal) (x : JsVal), truthy (getField x "rank") = false →
      sortJS cmpRank (l₁ ++ x :: l₂) =
        sortJS cmpRank l₁ ++ x :: sortJS cmpRank l₂) := by
  constructor
  · intro a b h
    rcases h with h | h
    · exact cmpRank_zero_left a b h
    · exact cmpRank_zero_right a b h
  · intro l₁ l₂ x hx
    apply sortJS_split
    · intro y
      rw [cmpRank_zero_right y x hx]
      simp
    · intro z
      rw [cmpRank_zero_left x z hx]
      simp

/-- C10 witness: a rank-0 candidate between ranks 5 and 1 compares as 0
against both and keeps its position. -/
theorem c10_falsy_rank_noop_w :
    cmpRank (rankedCand "X" 0) (rankedCand "A" 5) = 0 ∧
    sortJS cmpRank [rankedCand "A" 5, rankedCand "X" 0, rankedCand "B" 1] =
      [rankedCand "A" 5, rankedCand "X" 0, rankedCand "B" 1] :=
  ⟨c10_falsy_rank_noop.1 (rankedCand "X" 0) (rankedCand "A" 5) (Or.inl rfl),
   (c10_falsy_rank_noop.2 [rankedCand "A" 5] [rankedCand "B" 1] (rankedCand "X" 0) rfl).trans rfl⟩

end YtTitles
